import Mathlib

/-!
Verification of the Anki-Pix add-on (files `__init__.py`, `pixabay.py`,
`engine.py`) against its natural-language specification.

The Python sources are shallowly embedded: strings are modelled as Lean
`String` / `List Char`, network calls are modelled by explicit oracle
functions passed as parameters, and the nondeterministic `uuid4().hex[:8]`
identifier is modelled as an explicit input.  Each embedded definition is
named after the Python function it translates.
-/

/- ===================================================================
   Generic string helpers (modelling Python `str` operations)
   =================================================================== -/

/-- Python's substring test `needle in hay` (contiguous substring). -/
def hasSubList (needle : List Char) : List Char → Bool
  | [] => needle.isEmpty
  | c :: rest => needle.isPrefixOf (c :: rest) || hasSubList needle rest

/-- Python's `str.lower()` restricted to ASCII letters (the only case the
add-on relies on: it lowercases field content before testing for the ASCII
substring `<img`). -/
def lowerList (l : List Char) : List Char := l.map Char.toLower

/-- Python's `str.strip()`: drop leading and trailing whitespace. -/
def pyStrip (l : List Char) : List Char :=
  ((l.dropWhile Char.isWhitespace).reverse.dropWhile Char.isWhitespace).reverse

/- ===================================================================
   Keyword extractor: `AnkiPixDialog._extract_keyword` in `__init__.py`
       re.sub with pattern <[^>]+> replacing by the empty string, then strip
   `re.sub` with the pattern `<[^>]+>` removes each leftmost,
   non-overlapping run that starts at a '<', continues with one or more
   characters none of which is '>', and closes at the first following '>'.
   (The class `[^>]+` cannot cross a '>', so the regex engine never
   backtracks: a match attempt at a '<' succeeds exactly when at least one
   non-'>' character separates it from a later '>'.)  `stripAux` is that
   scan as a left-to-right automaton: the second argument is `none` when
   scanning outside a candidate match and `some acc` when inside one, with
   `acc` holding (reversed) the characters consumed since the opening '<'.
   -/
def stripAux : List Char → Option (List Char) → List Char
  | [], none => []
  | [], some acc => '<' :: acc.reverse
  | c :: rest, none =>
      if c = '<' then stripAux rest (some []) else c :: stripAux rest none
  | c :: rest, some acc =>
      if c = '>' then
        if acc.isEmpty then '<' :: '>' :: stripAux rest none
        else stripAux rest none
      else stripAux rest (some (c :: acc))

/-- Model of `AnkiPixDialog._extract_keyword`: strip markup tags, then trim. -/
def extract_keyword (html : String) : String :=
  (pyStrip (stripAux html.data none)).asString

/-- Recogniser for "the content contains a match of `<[^>]+>`", the same
automaton as `stripAux` with the removal replaced by `true`.  The inner
state is `some b` where `b` records whether at least one character was
consumed since the opening '<'. -/
def hasTagAux : List Char → Option Bool → Bool
  | [], _ => false
  | c :: rest, none =>
      if c = '<' then hasTagAux rest (some false) else hasTagAux rest none
  | c :: rest, some b =>
      if c = '>' then
        if b then true else hasTagAux rest none
      else hasTagAux rest (some true)

/-- The content contains at least one markup tag (a match of `<[^>]+>`). -/
def hasTag (l : List Char) : Bool := hasTagAux l none

/-- Recogniser for "the content is a concatenation of markup tags only":
the same automaton, requiring every character to lie inside some match. -/
def onlyTagsAux : List Char → Option Bool → Bool
  | [], none => true
  | [], some _ => false
  | c :: rest, none =>
      if c = '<' then onlyTagsAux rest (some false) else false
  | c :: rest, some b =>
      if c = '>' then
        if b then onlyTagsAux rest none else false
      else onlyTagsAux rest (some true)

/-- The content consists only of markup tags. -/
def onlyTags (l : List Char) : Bool := onlyTagsAux l none

/- ===================================================================
   Pixabay search client: `pixabay.search_image` and the standalone
   engine's `search_pixabay`.  An HTTP exchange is modelled by an oracle
   `PixParams → Except String PixResponse`; an `error` value stands for
   any raised exception (network error, timeout, non-2xx status via
   `raise_for_status`, malformed JSON body).  Besides the result, each
   function also returns the list of requests it issued, in order, so
   that the fallback policy is observable.
   =================================================================== -/

/-- The query parameters that vary between requests (`key`, `q`,
`image_type`); `lang=fr`, `safesearch=true` and `per_page=3` are fixed. -/
structure PixParams where
  key : String
  q : String
  image_type : String
deriving DecidableEq

/-- One hit object of the API response (the fields the add-on reads). -/
structure Hit where
  webformatURL : String
  previewURL : String
  tags : String
deriving DecidableEq

/-- A decoded API response body. -/
structure PixResponse where
  totalHits : Nat
  hits : List Hit
deriving DecidableEq

/-- Model of `data["hits"][0]["webformatURL"]` guarded by `totalHits > 0`; indexing
an empty `hits` list raises, which the enclosing `try` turns into `None`. -/
def firstHitURL (data : PixResponse) : Option String :=
  if 0 < data.totalHits then data.hits.head?.map Hit.webformatURL else none

namespace Pixabay

/-- Model of `pixabay.search_image`: empty API key fails fast; otherwise one request
with the requested category, plus exactly one fallback request with
category `photo` when the category was `illustration` and `totalHits` was
zero. -/
def search_image (oracle : PixParams → Except String PixResponse)
    (keyword api_key image_type : String) :
    Option String × List PixParams :=
  if api_key = "" then (none, [])
  else
    let p1 : PixParams := ⟨api_key, keyword, image_type⟩
    match oracle p1 with
    | .error _ => (none, [p1])
    | .ok data =>
      if data.totalHits = 0 ∧ image_type = "illustration" then
        let p2 : PixParams := ⟨api_key, keyword, "photo"⟩
        match oracle p2 with
        | .error _ => (none, [p1, p2])
        | .ok data2 => (firstHitURL data2, [p1, p2])
      else (firstHitURL data, [p1])

end Pixabay

/-- One entry of the list consumed by the preview picker
(`ImagePreviewDialog` reads `url`, `preview` and `tags`). -/
structure ImageResult where
  url : String
  preview : String
  tags : String
deriving DecidableEq

namespace Pixabay

/-- Modelled from the spec: `pixabay.search_images`, the multi-result
search used by the add-on's preview picker (`AnkiPixDialog._test_search`
calls `pixabay.search_images(keyword, api_key, image_type, count=5)`), is
absent from the provided `pixabay.py`.  Per the spec (§4.2), it issues the
same category-constrained request with the result count raised to `count`,
applies the same fixed illustration-to-photo fallback, and returns, per
hit, the medium-resolution URL, the preview-resolution URL and the tag
string; a missing API key or a failed request yields no results. -/
def search_images (oracle : PixParams → Except String PixResponse)
    (keyword api_key image_type : String) (count : Nat) :
    List ImageResult :=
  if api_key = "" then []
  else
    match oracle ⟨api_key, keyword, image_type⟩ with
    | .error _ => []
    | .ok data =>
      let second :=
        if data.totalHits = 0 ∧ image_type = "illustration" then
          match oracle ⟨api_key, keyword, "photo"⟩ with
          | .error _ => none
          | .ok d => some d
        else some data
      match second with
      | none => []
      | some d =>
        if 0 < d.totalHits then
          (d.hits.take count).map (fun h => ⟨h.webformatURL, h.previewURL, h.tags⟩)
        else []

end Pixabay

namespace Engine

/-- Model of `engine.search_pixabay`: like `pixabay.search_image` but the category
is fixed to `illustration`, so a zero-hit first response always triggers
the single `photo` fallback request. -/
def search_pixabay (oracle : PixParams → Except String PixResponse)
    (api_key keyword : String) :
    Option String × List PixParams :=
  if api_key = "" then (none, [])
  else
    let p1 : PixParams := ⟨api_key, keyword, "illustration"⟩
    match oracle p1 with
    | .error _ => (none, [p1])
    | .ok data =>
      if data.totalHits = 0 then
        let p2 : PixParams := ⟨api_key, keyword, "photo"⟩
        match oracle p2 with
        | .error _ => (none, [p1, p2])
        | .ok data2 => (firstHitURL data2, [p1, p2])
      else (firstHitURL data, [p1])

end Engine

/- ===================================================================
   Image downloader: `pixabay.download_image` and `engine.download_image`.
   The HTTP fetch is modelled by an `Except` value carrying the response
   content type and body; the `uuid.uuid4().hex[:8]` value is an explicit
   `unique_id` input.
   =================================================================== -/

/-- A fetched image response: `Content-Type` header and raw body bytes. -/
structure DlResponse where
  contentType : String
  content : List Nat
deriving DecidableEq

/-- Model of `"".join(c if c.isalnum() else "_" for c in keyword)`: every
non-alphanumeric character becomes an underscore. -/
def safe_keyword (keyword : List Char) : List Char :=
  keyword.map (fun c => if c.isAlphanum then c else '_')

namespace Pixabay

/-- Extension inference in `pixabay.download_image`: `png` / `gif`
substring of the content type, else `.jpg`. -/
def ext_of (content_type : String) : String :=
  if hasSubList "png".data content_type.data then ".png"
  else if hasSubList "gif".data content_type.data then ".gif"
  else ".jpg"

/-- Model of `pixabay.download_image`: on success, the bytes plus the proposed
filename `anki_pix_<safe keyword>_<unique id><ext>`. -/
def download_image (resp : Except String DlResponse)
    (keyword unique_id : String) : Option (List Nat × String) :=
  match resp with
  | .error _ => none
  | .ok r =>
      some (r.content,
        "anki_pix_" ++ (safe_keyword keyword.data).asString ++ "_"
          ++ unique_id ++ ext_of r.contentType)

end Pixabay

namespace Engine

/-- Model of `pathlib.Path(p).name` for plain POSIX paths: the final non-empty
slash-separated component. -/
def path_name (p : List Char) : List Char :=
  ((p.reverse.dropWhile (fun c => c == '/')).takeWhile (fun c => c != '/')).reverse

/-- Model of `pathlib.Path(p).suffix`: `'.' + the part of the name after its last
dot`, provided that dot is neither the first nor the last character of the
name; otherwise the empty string. -/
def path_suffix (p : List Char) : List Char :=
  let name := path_name p
  if name.contains '.' then
    let after := (name.reverse.takeWhile (fun c => c != '.')).reverse
    if 0 < after.length ∧ after.length < name.length - 1 then '.' :: after
    else []
  else []

/-- Extension inference in `engine.download_image`: content type first
(`jpeg`/`jpg`, `png`, `gif`), then the suffix of the URL path before any
query string, then `.jpg`. -/
def ext_of (content_type url : String) : String :=
  if hasSubList "jpeg".data content_type.data
      || hasSubList "jpg".data content_type.data then ".jpg"
  else if hasSubList "png".data content_type.data then ".png"
  else if hasSubList "gif".data content_type.data then ".gif"
  else
    let s := path_suffix (url.data.takeWhile (fun c => c != '?'))
    if s.isEmpty then ".jpg" else s.asString

/-- Model of `engine.download_image`: on success the saved filename
`<safe keyword>_<unique id><ext>`; `write_ok` models the `IOError` branch
of the file save. -/
def download_image (resp : Except String DlResponse)
    (url keyword unique_id : String) (write_ok : Bool) : Option String :=
  match resp with
  | .error _ => none
  | .ok r =>
      if write_ok then
        some ((safe_keyword keyword.data).asString ++ "_" ++ unique_id
          ++ ext_of r.contentType url)
      else none

end Engine

/- ===================================================================
   Configuration management: `get_config` / `save_config` in
   `__init__.py`.  The flat JSON document is modelled as an association
   list with string values and unique keys (Python `dict` semantics:
   `List.lookup` finds the binding); the config file on disk is an
   `Option` (`none` for a missing or unparsable file).
   =================================================================== -/

/-- The `default_config` dict of `get_config`. -/
def default_config : List (String × String) :=
  [("pixabay_api_key", ""), ("source_field", "Front"),
   ("image_type", "photo"), ("image_position", "after")]

/-- The merge loop of `get_config`: every default key absent from the
stored document is added; present keys are never overwritten. -/
def merge_defaults (config : List (String × String)) :
    List (String × String) :=
  config ++ default_config.filter (fun kv => (config.lookup kv.1).isNone)

/-- Model of `get_config`: parse the stored file and merge with the defaults; any
read or parse failure falls back to the defaults alone. -/
def get_config (stored : Option (List (String × String))) :
    List (String × String) :=
  match stored with
  | none => default_config
  | some config => merge_defaults config

/-- Model of `save_config`: the stored file now holds exactly the given document. -/
def save_config (config : List (String × String)) :
    Option (List (String × String)) :=
  some config

/- ===================================================================
   The add-on dialog's batch run: `AnkiPixDialog._apply` in
   `__init__.py`, together with the eligibility test it shares with
   `AnkiPixDialog._update_status`.  A host note is its note id, its
   ordered field names and its field values; `update_note` calls are
   recorded as `(note id, new field content)` pairs.
   =================================================================== -/

/-- A host application note as the dialog reads it. -/
structure ANote where
  nid : Nat
  field_names : List String
  fields : List String
deriving DecidableEq

/-- The eligibility filter of `_apply` (and `_update_status`): the target
field exists, its extracted keyword is non-empty, and its content does not
contain `<img` case-insensitively.  Returns the queue entries
`(note, idx, keyword, content)` exactly as `_apply` collects them. -/
def collect_notes (field_name : String) (notes : List ANote) :
    List (ANote × Nat × String × String) :=
  notes.filterMap (fun note =>
    match note.field_names.findIdx? (fun n => n == field_name) with
    | none => none
    | some idx =>
      let content := note.fields.getD idx ""
      let keyword := extract_keyword content
      if keyword ≠ "" ∧ hasSubList "<img".data (lowerList content.data) = false
      then some (note, idx, keyword, content)
      else none)

/-- Model of the image-tag f-string of the apply handler: the tag
embedding the stored filename. -/
def img_tag (filename : String) : String :=
  "<img src=\"" ++ filename ++ "\">"

/-- The position switch of `_apply`: `after` appends the tag, `before`
prepends it, anything else (the `replace` branch) keeps only the tag. -/
def apply_position (position original filename : String) : String :=
  if position = "after" then original ++ "<br>" ++ img_tag filename
  else if position = "before" then img_tag filename ++ "<br>" ++ original
  else img_tag filename

/-- Outcome of one `_apply` run: the two reported counters, the number of
selected-but-ineligible notes, and the persisted note updates in order. -/
structure ApplyResult where
  processed : Nat
  failed : Nat
  skipped : Nat
  updates : List (Nat × String)
deriving DecidableEq

/-- The per-item loop of `_apply`: cancellation is polled at the start of
each iteration; a search or download failure counts the item as failed; a
success mutates the field at the configured position and persists it. -/
def apply_loop (search : String → Option String)
    (download : String → String → Option String)
    (position : String) (cancel : Nat → Bool) :
    Nat → List (ANote × Nat × String × String) →
    Nat × Nat × List (Nat × String)
  | _, [] => (0, 0, [])
  | i, (note, _idx, keyword, original) :: rest =>
    if cancel i then (0, 0, [])
    else
      match search keyword with
      | none =>
        let r := apply_loop search download position cancel (i + 1) rest
        (r.1, r.2.1 + 1, r.2.2)
      | some url =>
        match download url keyword with
        | none =>
          let r := apply_loop search download position cancel (i + 1) rest
          (r.1, r.2.1 + 1, r.2.2)
        | some filename =>
          let r := apply_loop search download position cancel (i + 1) rest
          (r.1 + 1, r.2.1,
            (note.nid, apply_position position original filename) :: r.2.2)

/-- Model of `AnkiPixDialog._apply` over the selected notes: build the eligible
queue, run the loop, and report the counters; the skipped count is the
number of selected notes the eligibility filter excluded. -/
def apply_batch (search : String → Option String)
    (download : String → String → Option String)
    (position field_name : String) (cancel : Nat → Bool)
    (notes : List ANote) : ApplyResult :=
  let queue := collect_notes field_name notes
  let r := apply_loop search download position cancel 0 queue
  ⟨r.1, r.2.1, notes.length - queue.length, r.2.2⟩

/- ===================================================================
   The standalone engine's batch run: `engine.process_notes`, with
   `load_mock_db` / `save_mock_db` modelled as the `stored` value passed
   in and the `stored` value of the result.
   =================================================================== -/

/-- A note of the engine's mock database: the `id`, `Source` and `Image`
fields it reads (a missing or empty value is the empty string). -/
structure EngineNote where
  id : Nat
  source : String
  image : String
deriving DecidableEq

/-- Outcome of one `process_notes` run: the database content after the
run, the three reported counters, and whether `save_mock_db` was called. -/
structure EngineRun where
  stored : List EngineNote
  processed : Nat
  failed : Nat
  skipped : Nat
  saved : Bool
deriving DecidableEq

namespace Engine

/-- The body of the `process_notes` loop for one queued note: an empty
`Source` is skipped with no counter change; a failed search or download
increments `failed`; success writes the filename into `Image` and
increments `processed`. -/
def note_step (search : String → Option String)
    (download : String → String → Option String) (n : EngineNote) :
    EngineNote × Nat × Nat :=
  if n.source = "" then (n, 0, 0)
  else
    match search n.source with
    | none => (n, 0, 1)
    | some url =>
      match download url n.source with
      | none => (n, 0, 1)
      | some filename => ({ n with image := filename }, 1, 0)

/-- Model of `engine.process_notes`: load the database, queue the notes without an
image, run the loop (the loop mutates the shared note objects, so the
saved list is the full list with the processed notes updated), and save
the database only when at least one note was processed.  The reported
skipped counter is the number of notes that already had an image. -/
def process_notes (search : String → Option String)
    (download : String → String → Option String)
    (stored : List EngineNote) : EngineRun :=
  let notes := stored
  if notes.isEmpty then ⟨stored, 0, 0, 0, false⟩
  else
    let to_process := notes.filter (fun n => n.image == "")
    if to_process.isEmpty then ⟨stored, 0, 0, notes.length, false⟩
    else
      let steps := to_process.map (note_step search download)
      let processed := (steps.map (fun s => s.2.1)).sum
      let failed := (steps.map (fun s => s.2.2)).sum
      let new_notes := notes.map (fun n =>
        if n.image == "" then (note_step search download n).1 else n)
      ⟨if 0 < processed then new_notes else stored,
       processed, failed, notes.length - to_process.length,
       decide (0 < processed)⟩

end Engine

/-- The eligibility test of `_update_status` (and, identically, `_apply`)
for one note: the target field exists in the note's layout, the extracted
keyword is non-empty, and the lowercased content does not contain `<img`. -/
def note_eligible (field_name : String) (note : ANote) : Bool :=
  match note.field_names.findIdx? (fun n => n == field_name) with
  | none => false
  | some idx =>
    let content := note.fields.getD idx ""
    decide (extract_keyword content ≠ "") &&
      !(hasSubList "<img".data (lowerList content.data))

/- ===================================================================
   Theorems
   =================================================================== -/

lemma stripAux_of_hasTagAux_false :
    ∀ (l : List Char),
      (hasTagAux l none = false → stripAux l none = l) ∧
      (∀ acc : List Char, hasTagAux l (some (!acc.isEmpty)) = false →
        stripAux l (some acc) = '<' :: (acc.reverse ++ l)) := by
  intro l
  induction l with
  | nil =>
      refine ⟨fun _ => rfl, fun acc _ => ?_⟩
      simp [stripAux]
  | cons c rest ih =>
      refine ⟨?_, ?_⟩
      · intro h
        by_cases hc : c = '<'
        · subst hc
          have h' : hasTagAux rest (some false) = false := by
            simpa [hasTagAux] using h
          have := ih.2 [] (by simpa using h')
          simpa [stripAux] using this
        · have h' : hasTagAux rest none = false := by
            simpa [hasTagAux, hc] using h
          simp [stripAux, hc, ih.1 h']
      · intro acc h
        by_cases hc : c = '>'
        · subst hc
          by_cases hacc : acc = []
          · subst hacc
            have h' : hasTagAux rest none = false := by
              simpa [hasTagAux] using h
            simp [stripAux, ih.1 h']
          · exfalso
            have hie : acc.isEmpty = false := by
              cases acc with
              | nil => exact absurd rfl hacc
              | cons a as => rfl
            simp [hasTagAux, hie] at h
        · have h' : hasTagAux rest (some true) = false := by
            simpa [hasTagAux, hc] using h
          have := ih.2 (c :: acc) (by simpa using h')
          simp [stripAux, hc, this]

lemma stripAux_of_onlyTagsAux_true :
    ∀ (l : List Char),
      (onlyTagsAux l none = true → stripAux l none = []) ∧
      (∀ acc : List Char, onlyTagsAux l (some (!acc.isEmpty)) = true →
        stripAux l (some acc) = []) := by
  intro l
  induction l with
  | nil =>
      refine ⟨fun _ => rfl, fun acc h => ?_⟩
      simp [onlyTagsAux] at h
  | cons c rest ih =>
      refine ⟨?_, ?_⟩
      · intro h
        by_cases hc : c = '<'
        · subst hc
          have h' : onlyTagsAux rest (some false) = true := by
            simpa [onlyTagsAux] using h
          have := ih.2 [] (by simpa using h')
          simpa [stripAux] using this
        · exfalso
          simp [onlyTagsAux, hc] at h
      · intro acc h
        by_cases hc : c = '>'
        · subst hc
          by_cases hacc : acc = []
          · subst hacc
            exfalso
            simp [onlyTagsAux] at h
          · have hie : acc.isEmpty = false := by
              cases acc with
              | nil => exact absurd rfl hacc
              | cons a as => rfl
            have h' : onlyTagsAux rest none = true := by
              simpa [onlyTagsAux, hie] using h
            simp [stripAux, hie, ih.1 h']
        · have h' : onlyTagsAux rest (some true) = true := by
            simpa [onlyTagsAux, hc] using h
          have := ih.2 (c :: acc) (by simpa using h')
          simpa [stripAux, hc] using this


/-- C3: for every original field content and filename, mutation with
position `after` yields `original + "<br>" + image tag`, position
`before` yields `image tag + "<br>" + original`, and position `replace`
yields the image tag alone; in particular, position `after` on original
`"Paris"` with filename `"x.jpg"` yields `"Paris<br><img src=\"x.jpg\">"`. -/
theorem mutation_positions (original filename : String) :
    apply_position "after" original filename
      = original ++ "<br>" ++ img_tag filename ∧
    apply_position "before" original filename
      = img_tag filename ++ "<br>" ++ original ∧
    apply_position "replace" original filename = img_tag filename ∧
    apply_position "after" "Paris" "x.jpg" = "Paris<br><img src=\"x.jpg\">" := by
  refine ⟨?_, ?_, ?_, by decide⟩ <;> simp [apply_position]

/-- C9: for every keyword, a search invoked with a missing (empty) API key
returns the no-image-found result and issues no network request, in both
the add-on search client and the standalone engine's. -/
theorem search_empty_api_key
    (oracle : PixParams → Except String PixResponse)
    (keyword image_type : String) :
    Pixabay.search_image oracle keyword "" image_type = (none, []) ∧
    Engine.search_pixabay oracle "" keyword = (none, []) := by
  constructor <;> rfl

/-- C8: the keyword extractor returns the trimmed content unchanged when
the content has no markup tags, returns `"Paris"` on `"<b>Paris</b>"`,
and returns the empty string on a string consisting only of tags. -/
theorem extract_keyword_contract :
    (∀ s : String, hasTag s.data = false →
      extract_keyword s = (pyStrip s.data).asString) ∧
    extract_keyword "<b>Paris</b>" = "Paris" ∧
    (∀ s : String, onlyTags s.data = true → extract_keyword s = "") := by
  refine ⟨?_, by decide, ?_⟩
  · intro s h
    unfold extract_keyword
    rw [(stripAux_of_hasTagAux_false s.data).1 h]
  · intro s h
    unfold extract_keyword
    rw [(stripAux_of_onlyTagsAux_true s.data).1 h]
    rfl

/-- Witness for C8: `" Paris "` has no tags and extracts to its trimmed
content `"Paris"`; `"<a href=x><br>"` is all tags and extracts to `""`. -/
theorem extract_keyword_contract_witness :
    extract_keyword " Paris " = (pyStrip " Paris ".data).asString ∧
    extract_keyword "<a href=x><br>" = "" :=
  ⟨extract_keyword_contract.1 " Paris " (by decide),
   extract_keyword_contract.2.2 "<a href=x><br>" (by decide)⟩

/-- C6: for every note whose target field exists and whose extracted
keyword is non-empty, eligibility is false if and only if the field
content, case-insensitively, contains the substring `<img`. -/
theorem eligibility_img_iff (field_name : String) (note : ANote) (idx : Nat)
    (hidx : note.field_names.findIdx? (fun n => n == field_name) = some idx)
    (hkw : extract_keyword (note.fields.getD idx "") ≠ "") :
    (note_eligible field_name note = false ↔
      hasSubList "<img".data (lowerList (note.fields.getD idx "").data)
        = true) := by
  simp only [note_eligible, hidx]
  rw [decide_eq_true hkw]
  cases hasSubList "<img".data (lowerList (note.fields.getD idx "").data)
    <;> simp

/-- Witness for C6: the note with `Front` content `"x<IMG>"` has keyword
`"x"` and an embedded image, hence is ineligible. -/
theorem eligibility_img_iff_witness :
    note_eligible "Front" ⟨1, ["Front"], ["x<IMG>"]⟩ = false :=
  (eligibility_img_iff "Front" ⟨1, ["Front"], ["x<IMG>"]⟩ 0
    (by decide) (by decide)).mpr (by decide)

lemma lookup_append_of_some {α β : Type} [BEq α]
    (l₁ l₂ : List (α × β)) (k : α) (v : β) (h : l₁.lookup k = some v) :
    (l₁ ++ l₂).lookup k = some v := by
  induction l₁ with
  | nil => simp [List.lookup] at h
  | cons p rest ih =>
    cases p with
    | mk a b =>
      rw [List.cons_append]
      simp only [List.lookup] at h ⊢
      cases hbeq : k == a with
      | true => rw [hbeq] at h; simpa using h
      | false => rw [hbeq] at h; exact ih h

/-- C7: saving a config containing `pixabay_api_key="k"` and
`source_field="Front"` and reloading yields those two values plus
defaulted `image_type` and `image_position`; any key present in the
stored file is preserved by the load's merge-with-defaults rather than
overwritten. -/
theorem config_round_trip :
    (get_config (save_config
        [("pixabay_api_key", "k"), ("source_field", "Front")])).lookup
      "pixabay_api_key" = some "k" ∧
    (get_config (save_config
        [("pixabay_api_key", "k"), ("source_field", "Front")])).lookup
      "source_field" = some "Front" ∧
    (get_config (save_config
        [("pixabay_api_key", "k"), ("source_field", "Front")])).lookup
      "image_type" = some "photo" ∧
    (get_config (save_config
        [("pixabay_api_key", "k"), ("source_field", "Front")])).lookup
      "image_position" = some "after" ∧
    (∀ (stored : List (String × String)) (k v : String),
      stored.lookup k = some v →
      (get_config (save_config stored)).lookup k = some v) := by
  refine ⟨by decide, by decide, by decide, by decide, ?_⟩
  intro stored k v h
  have := lookup_append_of_some stored
    (default_config.filter (fun kv => (stored.lookup kv.1).isNone)) k v h
  simpa [get_config, save_config, merge_defaults] using this

/-- Witness for C7: a key unknown to the defaults survives the round
trip with its stored value. -/
theorem config_round_trip_witness :
    (get_config (save_config [("legacy_flag", "1")])).lookup "legacy_flag"
      = some "1" :=
  config_round_trip.2.2.2.2 [("legacy_flag", "1")] "legacy_flag" "1"
    (by decide)

/-- C2: with a configured API key, a search whose requested category is
`illustration` and whose first response reports zero hits issues exactly
the primary request followed by one `photo` retry; a search requested
with category `photo`, `vector` or `all` whose response reports zero
hits issues exactly the primary request and is never retried. -/
theorem search_fallback_policy
    (oracle : PixParams → Except String PixResponse)
    (keyword api_key image_type : String) (data : PixResponse)
    (hkey : api_key ≠ "")
    (hok : oracle ⟨api_key, keyword, image_type⟩ = .ok data)
    (hzero : data.totalHits = 0) :
    (image_type = "illustration" →
      (Pixabay.search_image oracle keyword api_key image_type).2
        = [⟨api_key, keyword, "illustration"⟩,
           ⟨api_key, keyword, "photo"⟩]) ∧
    (image_type = "photo" ∨ image_type = "vector" ∨ image_type = "all" →
      (Pixabay.search_image oracle keyword api_key image_type).2
        = [⟨api_key, keyword, image_type⟩]) := by
  constructor
  · intro hil
    subst hil
    simp only [Pixabay.search_image, if_neg hkey, hok]
    rw [if_pos ⟨hzero, trivial⟩]
    cases oracle ⟨api_key, keyword, "photo"⟩ <;> rfl
  · intro hcat
    have hni : image_type ≠ "illustration" := by
      rcases hcat with h | h | h <;> subst h <;> decide
    simp only [Pixabay.search_image, if_neg hkey, hok]
    rw [if_neg (fun hand => hni hand.2)]

/-- Witness for C2: a constant zero-hit oracle with category
`illustration` produces the two-request trace, and with category `photo`
the one-request trace. -/
theorem search_fallback_policy_witness :
    (Pixabay.search_image
        (fun _ => .ok ⟨0, []⟩) "dog" "k" "illustration").2
      = [⟨"k", "dog", "illustration"⟩, ⟨"k", "dog", "photo"⟩] ∧
    (Pixabay.search_image (fun _ => .ok ⟨0, []⟩) "dog" "k" "photo").2
      = [⟨"k", "dog", "photo"⟩] :=
  ⟨(search_fallback_policy (fun _ => .ok ⟨0, []⟩) "dog" "k" "illustration"
      ⟨0, []⟩ (by decide) rfl rfl).1 rfl,
   (search_fallback_policy (fun _ => .ok ⟨0, []⟩) "dog" "k" "photo"
      ⟨0, []⟩ (by decide) rfl rfl).2 (Or.inl rfl)⟩

/-- C10: the engine's database is written back exactly when at least one
note was processed; whenever the processed count is zero, the stored
database is left unchanged. -/
theorem engine_saves_only_when_processed
    (search : String → Option String)
    (download : String → String → Option String)
    (stored : List EngineNote) :
    ((Engine.process_notes search download stored).saved = true ↔
      0 < (Engine.process_notes search download stored).processed) ∧
    ((Engine.process_notes search download stored).processed = 0 →
      (Engine.process_notes search download stored).stored = stored) := by
  unfold Engine.process_notes
  by_cases h1 : stored.isEmpty
  · simp [h1]
  · by_cases h2 : (stored.filter (fun n => n.image == "")).isEmpty
    · simp [h1, h2]
    · rw [if_neg h1, if_neg h2]
      refine ⟨by simp [decide_eq_true_iff], fun h => ?_⟩
      simp only [] at h
      rw [List.map_map] at h
      simp [h]

/-- Witness for C10: a run where every search fails processes nothing
and leaves the stored database unchanged. -/
theorem engine_saves_only_when_processed_witness :
    (Engine.process_notes (fun _ => none) (fun _ _ => none)
        [⟨1, "dog", ""⟩]).stored = [⟨1, "dog", ""⟩] :=
  (engine_saves_only_when_processed (fun _ => none) (fun _ _ => none)
    [⟨1, "dog", ""⟩]).2 (by decide)

/-- C4 counterexample: the add-on's `pixabay.download_image` on keyword
`"dog"` with random id `"abcd1234"` and a jpeg response proposes
`"anki_pix_dog_abcd1234.jpg"`, which is not the sanitized keyword
followed by an underscore, the id and the extension — indeed the
sanitized keyword `"dog"` is not even a prefix of it. -/
theorem filename_prefix_counterexample :
    Pixabay.download_image (.ok ⟨"image/jpeg", []⟩) "dog" "abcd1234"
      = some ([], "anki_pix_dog_abcd1234.jpg") ∧
    "anki_pix_dog_abcd1234.jpg"
      ≠ (safe_keyword "dog".data).asString ++ "_" ++ "abcd1234"
          ++ Pixabay.ext_of "image/jpeg" ∧
    (safe_keyword "dog".data).isPrefixOf "anki_pix_dog_abcd1234.jpg".data
      = false :=
  ⟨by decide, by decide, by decide⟩

/-- C4 (amended): for every keyword and successful download, the
standalone engine's proposed filename equals the sanitized keyword
(every non-alphanumeric character replaced by an underscore), an
underscore, the 8-character random id and the extension, while the
add-on's `pixabay` module prefixes that same name with `"anki_pix_"`;
two downloads of the same keyword with distinct random ids produce
distinct filenames in either module. -/
theorem filename_structure_amended
    (keyword url unique_id1 unique_id2 : String) (r : DlResponse)
    (hl1 : unique_id1.length = 8) (hl2 : unique_id2.length = 8)
    (hne : unique_id1 ≠ unique_id2) :
    Engine.download_image (.ok r) url keyword unique_id1 true
      = some ((safe_keyword keyword.data).asString ++ "_" ++ unique_id1
          ++ Engine.ext_of r.contentType url) ∧
    Pixabay.download_image (.ok r) keyword unique_id1
      = some (r.content,
          "anki_pix_" ++ (safe_keyword keyword.data).asString ++ "_"
            ++ unique_id1 ++ Pixabay.ext_of r.contentType) ∧
    Engine.download_image (.ok r) url keyword unique_id1 true
      ≠ Engine.download_image (.ok r) url keyword unique_id2 true ∧
    Pixabay.download_image (.ok r) keyword unique_id1
      ≠ Pixabay.download_image (.ok r) keyword unique_id2 := by
  refine ⟨rfl, rfl, ?_, ?_⟩
  · intro h
    have hs : some ((safe_keyword keyword.data).asString ++ "_"
          ++ unique_id1 ++ Engine.ext_of r.contentType url)
        = some ((safe_keyword keyword.data).asString ++ "_"
          ++ unique_id2 ++ Engine.ext_of r.contentType url) := h
    have hd := congrArg String.data (Option.some.inj hs)
    simp only [String.data_append] at hd
    exact hne (String.ext
      (List.append_cancel_left (List.append_cancel_right hd)))
  · intro h
    have hs : some (r.content,
          "anki_pix_" ++ (safe_keyword keyword.data).asString ++ "_"
            ++ unique_id1 ++ Pixabay.ext_of r.contentType)
        = some (r.content,
          "anki_pix_" ++ (safe_keyword keyword.data).asString ++ "_"
            ++ unique_id2 ++ Pixabay.ext_of r.contentType) := h
    have hd := congrArg String.data
      (congrArg Prod.snd (Option.some.inj hs))
    simp only [String.data_append] at hd
    exact hne (String.ext
      (List.append_cancel_left (List.append_cancel_right hd)))

/-- Witness for the amended C4: same keyword, distinct 8-character ids,
distinct engine filenames. -/
theorem filename_structure_amended_witness :
    Engine.download_image (.ok ⟨"", []⟩) "u" "dog" "aaaaaaaa" true
      ≠ Engine.download_image (.ok ⟨"", []⟩) "u" "dog" "bbbbbbbb" true :=
  (filename_structure_amended "dog" "u" "aaaaaaaa" "bbbbbbbb" ⟨"", []⟩
    (by decide) (by decide) (by decide)).2.2.1

/-- C5: every entry the multi-result search hands to the picker carries
the medium-resolution URL, the preview-resolution URL and the tag string
of an actual hit of a response to a request for this keyword and key. -/
theorem search_images_result_fields
    (oracle : PixParams → Except String PixResponse)
    (keyword api_key image_type : String) (count : Nat) (img : ImageResult)
    (hmem : img ∈
      Pixabay.search_images oracle keyword api_key image_type count) :
    ∃ (p : PixParams) (d : PixResponse) (h : Hit),
      oracle p = .ok d ∧ p.q = keyword ∧ p.key = api_key ∧ h ∈ d.hits ∧
      img.url = h.webformatURL ∧ img.preview = h.previewURL ∧
      img.tags = h.tags := by
  unfold Pixabay.search_images at hmem
  by_cases hk : api_key = ""
  · rw [if_pos hk] at hmem
    simp at hmem
  · rw [if_neg hk] at hmem
    cases h1 : oracle ⟨api_key, keyword, image_type⟩ with
    | error e =>
        rw [h1] at hmem
        simp at hmem
    | ok data =>
        rw [h1] at hmem
        simp only [] at hmem
        by_cases hz : data.totalHits = 0 ∧ image_type = "illustration"
        · rw [if_pos hz] at hmem
          cases h2 : oracle ⟨api_key, keyword, "photo"⟩ with
          | error e =>
              rw [h2] at hmem
              simp at hmem
          | ok data2 =>
              rw [h2] at hmem
              simp only [] at hmem
              by_cases hpos : 0 < data2.totalHits
              · rw [if_pos hpos] at hmem
                rcases List.mem_map.mp hmem with ⟨hh, hmemtake, rfl⟩
                exact ⟨⟨api_key, keyword, "photo"⟩, data2, hh, h2, rfl, rfl,
                  List.take_subset _ _ hmemtake, rfl, rfl, rfl⟩
              · rw [if_neg hpos] at hmem
                simp at hmem
        · rw [if_neg hz] at hmem
          simp only [] at hmem
          by_cases hpos : 0 < data.totalHits
          · rw [if_pos hpos] at hmem
            rcases List.mem_map.mp hmem with ⟨hh, hmemtake, rfl⟩
            exact ⟨⟨api_key, keyword, image_type⟩, data, hh, h1, rfl, rfl,
              List.take_subset _ _ hmemtake, rfl, rfl, rfl⟩
          · rw [if_neg hpos] at hmem
            simp at hmem

/-- Witness for C5: with a one-hit oracle, the single returned entry's
fields come from that hit. -/
theorem search_images_result_fields_witness :
    ∃ (p : PixParams) (d : PixResponse) (h : Hit),
      (fun _ : PixParams =>
        (Except.ok ⟨1, [⟨"u", "p", "t"⟩]⟩ : Except String PixResponse)) p
          = .ok d ∧
      p.q = "dog" ∧ p.key = "k" ∧ h ∈ d.hits ∧
      (⟨"u", "p", "t"⟩ : ImageResult).url = h.webformatURL ∧
      (⟨"u", "p", "t"⟩ : ImageResult).preview = h.previewURL ∧
      (⟨"u", "p", "t"⟩ : ImageResult).tags = h.tags :=
  search_images_result_fields
    (fun _ => .ok ⟨1, [⟨"u", "p", "t"⟩]⟩) "dog" "k" "photo" 5
    ⟨"u", "p", "t"⟩ (by decide)

/-- C1: over three selected notes — A with keyword `"dog"` and no image,
B whose field already contains an image tag, C whose source field is
empty — a batch run in which A's search and download succeed processes
exactly A (with the mutated field persisted), skips B and C, and reports
processed=1, skipped=2, failed=0. -/
theorem batch_scenario
    (search : String → Option String)
    (download : String → String → Option String)
    (position url filename : String)
    (hs : search "dog" = some url)
    (hd : download url "dog" = some filename) :
    apply_batch search download position "Front" (fun _ => false)
      [⟨1, ["Front", "Back"], ["dog", ""]⟩,
       ⟨2, ["Front", "Back"], ["cat<img src=\"cat.jpg\">", ""]⟩,
       ⟨3, ["Front", "Back"], ["", ""]⟩]
      = ⟨1, 0, 2, [(1, apply_position position "dog" filename)]⟩ := by
  have hq : collect_notes "Front"
      [⟨1, ["Front", "Back"], ["dog", ""]⟩,
       ⟨2, ["Front", "Back"], ["cat<img src=\"cat.jpg\">", ""]⟩,
       ⟨3, ["Front", "Back"], ["", ""]⟩]
      = [(⟨1, ["Front", "Back"], ["dog", ""]⟩, 0, "dog", "dog")] := by
    decide
  unfold apply_batch
  rw [hq]
  simp [apply_loop, hs, hd]

/-- Witness for C1: concrete always-succeeding search and download
oracles realize the scenario. -/
theorem batch_scenario_witness :
    apply_batch (fun _ => some "http://x")
      (fun _ _ => some "dog_0a1b2c3d.jpg")
      "after" "Front" (fun _ => false)
      [⟨1, ["Front", "Back"], ["dog", ""]⟩,
       ⟨2, ["Front", "Back"], ["cat<img src=\"cat.jpg\">", ""]⟩,
       ⟨3, ["Front", "Back"], ["", ""]⟩]
      = ⟨1, 0, 2, [(1, apply_position "after" "dog" "dog_0a1b2c3d.jpg")]⟩ :=
  batch_scenario (fun _ => some "http://x")
    (fun _ _ => some "dog_0a1b2c3d.jpg") "after" "http://x"
    "dog_0a1b2c3d.jpg" rfl rfl
